import Mathlib

/-!
Shallow embedding of src/vs/editor/contrib/folding/browser/folding.ts
(the FoldingController orchestration layer and the folding editor actions).

Conventions used throughout:
* JavaScript values that may be null or undefined are modelled as Option.
* Pointer identity of freshly created promise objects is modelled by fresh
  natural-number generation ids.
* Collaborator objects that the controller only calls into (FoldingModel,
  HiddenRangeModel, the notification service, the editor) are modelled by
  the data the controller passes to them and by abstract result parameters.
-/

namespace Folding

/-- Entries of a CollapseMemento (an array of line mementos produced by
FoldingModel.getMemento). folding.ts treats the payload opaquely; only
presence and identity of the array matter here, so entries are opaque ids.
Note that in JavaScript an empty array is truthy, so an empty memento is
distinct from an absent one; Option models absence. -/
abbrev CollapseMemento := List Nat

/-- The id constant exported by syntaxRangeProvider.ts and imported by
folding.ts. Its concrete value is irrelevant to folding.ts, which only
compares memento provider fields against it; it must merely differ from
the ids of the other providers. -/
def ID_SYNTAX_PROVIDER : String := "syntax"

/-- The id constant exported by intializingRangeProvider.ts and imported by
folding.ts. As with ID_SYNTAX_PROVIDER, only used for comparisons. -/
def ID_INIT_PROVIDER : String := "init"

/-- FoldingStateMemento (folding.ts lines 53-58): the view-state memento.
All four fields are optional in the TypeScript interface. -/
structure FoldingStateMemento where
  collapsedRegions : Option CollapseMemento := none
  lineCount : Option Nat := none
  provider : Option String := none
  foldedImports : Option Bool := none
deriving Repr, DecidableEq

/-- Context read (not written) by restoreViewState: the editor model, the
enablement flags and the collaborator models present on the controller.
modelLineCount is none when editor.getModel() is null. -/
structure RestoreContext where
  modelLineCount : Option Nat
  isEnabled : Bool
  tooLargeForTokenization : Bool
  hasHiddenRangeModel : Bool
  hasFoldingModelPromise : Bool
deriving Repr, DecidableEq

/-- The controller state written by restoreViewState, together with a log of
the collaborator calls it makes: hiddenApplyCalledWith records the argument
of hiddenRangeModel.applyMemento, modelApplyScheduled the collapse memento
whose asynchronous foldingModel.applyMemento was chained on the folding
model promise. -/
structure RestoreEffects where
  currentModelHasFoldedImports : Bool
  foldingStateMemento : Option FoldingStateMemento
  hiddenApplyCalledWith : Option CollapseMemento
  modelApplyScheduled : Option CollapseMemento
deriving Repr, DecidableEq

/-- FoldingController.restoreViewState (folding.ts lines 199-234).
hiddenApplyOk is the boolean returned by hiddenRangeModel.applyMemento.
The input state may itself be null when called from JavaScript, hence
Option FoldingStateMemento. -/
def restoreViewState (ctx : RestoreContext) (hiddenApplyOk : Bool)
    (s : RestoreEffects) (state : Option FoldingStateMemento) : RestoreEffects :=
  match ctx.modelLineCount with
  | none => s
  | some lc =>
    if !ctx.isEnabled || ctx.tooLargeForTokenization || !ctx.hasHiddenRangeModel then s
    else match state with
      | none => s
      | some st =>
        if st.lineCount ≠ some lc then s
        else match st.collapsedRegions with
          | none => { s with currentModelHasFoldedImports := st.foldedImports.getD false }
          | some cr =>
            { currentModelHasFoldedImports := st.foldedImports.getD false
            , foldingStateMemento :=
                if st.provider = some ID_SYNTAX_PROVIDER ∨
                    st.provider = some ID_INIT_PROVIDER then some st
                else s.foldingStateMemento
            , hiddenApplyCalledWith := some cr
            , modelApplyScheduled :=
                if hiddenApplyOk && ctx.hasFoldingModelPromise then some cr
                else s.modelApplyScheduled }

/-- Context read by saveViewState (folding.ts lines 183-194). -/
structure SaveContext where
  modelLineCount : Option Nat
  isEnabled : Bool
  tooLargeForTokenization : Bool
  hasFoldingModel : Bool
  foldingModelInitialized : Bool
  foldingModelMemento : Option CollapseMemento
  hiddenRangeMemento : Option CollapseMemento
  rangeProviderId : Option String
  currentModelHasFoldedImports : Bool
deriving Repr, DecidableEq

/-- The empty object literal returned by saveViewState when the editor has no
model, folding is disabled or the model is too large for tokenization. -/
def emptyMemento : FoldingStateMemento := {}

/-- FoldingController.saveViewState (folding.ts lines 183-194). Returns none
for the undefined fall-through when the folding model was disposed. -/
def saveViewState (ctx : SaveContext) : Option FoldingStateMemento :=
  match ctx.modelLineCount with
  | none => some emptyMemento
  | some lc =>
    if !ctx.isEnabled || ctx.tooLargeForTokenization then some emptyMemento
    else if ctx.hasFoldingModel then
      some { collapsedRegions :=
               if ctx.foldingModelInitialized then ctx.foldingModelMemento
               else ctx.hiddenRangeMemento
           , lineCount := some lc
           , provider := ctx.rangeProviderId
           , foldedImports := some ctx.currentModelHasFoldedImports }
    else none

/-- Outcome of FoldingAction.runEditorCommand (folding.ts lines 550-569):
either an early return without any effect, or telemetry plus a continuation
chained on the folding model promise. -/
inductive CommandOutcome where
  | noop
  | scheduled
deriving Repr, DecidableEq

/-- FoldingAction.runEditorCommand (folding.ts lines 550-569): returns early
when FoldingController.get yields null or when getFoldingModel yields a null
promise; otherwise reports telemetry and chains the invoke continuation. -/
def runEditorCommand (hasController : Bool) (hasFoldingModelPromise : Bool) :
    CommandOutcome :=
  if !hasController then CommandOutcome.noop
  else if !hasFoldingModelPromise then CommandOutcome.noop
  else CommandOutcome.scheduled

/-- The continuation chained by runEditorCommand on the folding model promise:
invoke is only called when the promise resolves with a non-null folding
model. Returns whether invoke is called. -/
def runEditorCommandContinuation (resolvedModel : Option Unit) : Bool :=
  resolvedModel.isSome

/-- The RangeProvider instance selected by getRangeProvider, identified by
its constructor class in folding.ts lines 295-316. SyntaxRangeProvider
wraps the whole ordered provider list (here abstract provider ids);
InitializingRangeProvider carries the seeding collapse memento and the
timeout in milliseconds passed at construction. -/
inductive ProviderChoice where
  | IndentRangeProvider
  | InitializingRangeProvider (memento : CollapseMemento) (timeoutMs : Nat)
  | SyntaxRangeProvider (providers : List Nat)
deriving Repr, DecidableEq

/-- Whether the choice is the initializing provider. -/
def ProviderChoice.isInitializing : ProviderChoice → Bool
  | .InitializingRangeProvider _ _ => true
  | _ => false

/-- The two controller fields getRangeProvider reads and writes:
this.rangeProvider (the cached live provider instance) and
this.foldingStateMemento. -/
structure ProviderSelectionState where
  rangeProvider : Option ProviderChoice
  foldingStateMemento : Option FoldingStateMemento
deriving Repr, DecidableEq

/-- Context read by getRangeProvider: the foldingStrategy configuration
(useFoldingProviders is foldingStrategy different from indentation), the
presence of this.foldingModel, and the ordered syntax-capable providers the
language feature registry returns for the document. -/
structure ProviderContext where
  useFoldingProviders : Bool
  hasFoldingModel : Bool
  orderedProviders : List Nat
deriving Repr, DecidableEq

/-- The collapsedRegions field of an optional memento, used for the
truthiness test on line 303 of folding.ts. -/
def mementoCollapsed (m : Option FoldingStateMemento) : Option CollapseMemento :=
  m.bind (fun st => st.collapsedRegions)

/-- FoldingController.getRangeProvider (folding.ts lines 295-316). Returns
the provider instance handed to the caller together with the updated
controller fields. A cached provider is returned unchanged; otherwise the
indentation provider is installed as fallback, then possibly replaced by the
initializing provider (which keeps the memento for the next request) or the
syntax provider; on every path but the initializing one the memento is
cleared before returning. -/
def getRangeProvider (ctx : ProviderContext) (s : ProviderSelectionState) :
    ProviderChoice × ProviderSelectionState :=
  match s.rangeProvider with
  | some p => (p, s)
  | none =>
    if ctx.useFoldingProviders && ctx.hasFoldingModel then
      match ctx.orderedProviders, mementoCollapsed s.foldingStateMemento with
      | [], some cr =>
        let p := ProviderChoice.InitializingRangeProvider cr 30000
        (p, ⟨some p, s.foldingStateMemento⟩)
      | p0 :: ps, _ =>
        let p := ProviderChoice.SyntaxRangeProvider (p0 :: ps)
        (p, ⟨some p, none⟩)
      | [], none =>
        (ProviderChoice.IndentRangeProvider, ⟨some ProviderChoice.IndentRangeProvider, none⟩)
    else
      (ProviderChoice.IndentRangeProvider, ⟨some ProviderChoice.IndentRangeProvider, none⟩)

/-- FoldingController.onFoldingStrategyChanged (folding.ts lines 287-293):
disposes the cached provider and triggers a recomputation. The boolean
records that triggerFoldingModelChanged was invoked. -/
def onFoldingStrategyChangedSel (s : ProviderSelectionState) :
    ProviderSelectionState × Bool :=
  (⟨none, s.foldingStateMemento⟩, true)

/-- The timeout callback handed to the InitializingRangeProvider at
construction (folding.ts lines 304-308): after 30 seconds it clears the
saved memento and calls onFoldingStrategyChanged, forcing reselection. -/
def initializingTimeoutCallback (s : ProviderSelectionState) :
    ProviderSelectionState × Bool :=
  onFoldingStrategyChangedSel { s with foldingStateMemento := none }

/-! ### The asynchronous computation pipeline

triggerFoldingModelChanged (folding.ts lines 327-375) schedules provider
computations through a debouncing Delayer and applies a resolved result to
the FoldingModel only behind the pointer-identity guard
`foldingRegionPromise === this.foldingRegionPromise` on line 342. The
single-threaded event interleavings are modelled as a step relation: each
createCancelablePromise call yields a fresh generation id standing for the
pointer identity of the new promise object. -/

/-- Controller state relevant to the computation pipeline.
current is this.foldingRegionPromise; inFlight lists the started and not
yet settled nor cancelled computations; cancelled records every generation
whose promise had cancel called on it; modelRegions is the abstract
FoldingRegions snapshot held by the FoldingModel, updates counts the calls
to foldingModel.update and errorsReported the calls to onUnexpectedError
from the rejection handler on lines 370-373. -/
structure CompState where
  schedulerActive : Bool
  pendingTrigger : Bool
  current : Option Nat
  inFlight : List Nat
  cancelled : List Nat
  nextGen : Nat
  modelRegions : Option (List Nat)
  updates : Nat
  errorsReported : Nat
deriving Repr, DecidableEq

/-- Events of the computation pipeline. trigger is any call to
triggerFoldingModelChanged (content change, strategy change, configuration
change); delayerFire is the debounced thunk on lines 333-369 actually
running; resolve g r is the fulfilment callback on lines 341-369 for the
promise with identity g and provider result r (none models the null result
a provider returns when cancelled mid-flight); reject g is the rejection
path handled on lines 370-373. -/
inductive CompEvent where
  | trigger
  | delayerFire
  | resolve (g : Nat) (r : Option (List Nat))
  | reject (g : Nat)
deriving Repr, DecidableEq

/-- One step of the computation pipeline, translated from
triggerFoldingModelChanged. On trigger, a live scheduler first cancels any
current promise (lines 329-332) and then schedules the thunk; the thunk,
when the delayer fires, creates a fresh cancellable promise and installs it
as current (line 340); a fulfilment applies foldingModel.update only when
the result is non-null and the resolved promise is still pointer-identical
to the current one (lines 342-356); a rejection reports to
onUnexpectedError and leaves the model untouched. -/
def compStep (s : CompState) : CompEvent → CompState
  | .trigger =>
    if s.schedulerActive then
      { s with
        current := none
        inFlight := match s.current with
          | some g => s.inFlight.erase g
          | none => s.inFlight
        cancelled := match s.current with
          | some g => s.cancelled ++ [g]
          | none => s.cancelled
        pendingTrigger := true }
    else s
  | .delayerFire =>
    if s.schedulerActive && s.pendingTrigger then
      { s with
        current := some s.nextGen
        inFlight := s.inFlight ++ [s.nextGen]
        nextGen := s.nextGen + 1
        pendingTrigger := false }
    else s
  | .resolve g r =>
    let s1 := { s with inFlight := s.inFlight.erase g }
    match r with
    | some regions =>
      if s.current = some g then
        { s1 with modelRegions := some regions, updates := s.updates + 1 }
      else s1
    | none => s1
  | .reject g =>
    { s with
      inFlight := s.inFlight.erase g
      errorsReported := s.errorsReported + 1 }

/-- The pipeline state right after onModelChanged attached a document
(folding.ts lines 236-285): fresh scheduler, no promise, fresh model. -/
def compInit : CompState :=
  { schedulerActive := true
  , pendingTrigger := false
  , current := none
  , inFlight := []
  , cancelled := []
  , nextGen := 0
  , modelRegions := none
  , updates := 0
  , errorsReported := 0 }

/-- States reachable from the freshly attached controller under arbitrary
event interleavings. -/
inductive CompReachable : CompState → Prop where
  | init : CompReachable compInit
  | step {s : CompState} (e : CompEvent) : CompReachable s → CompReachable (compStep s e)

/-! ### The too-many-regions notification -/

/-- Events touching the _tooManyRegionsNotified flag: a provider computation
invoking the notify callback built on folding.ts lines 135-145, and a
configuration change of EditorOption.foldingMaximumRegions handled on lines
155-159 (which also re-reads the option and calls onModelChanged; neither
of those touches the flag again). -/
inductive TooManyEvent where
  | notifyTooMany (maxFoldingRegions : Nat)
  | changeMaxRegionsConfig (newMax : Nat)
deriving Repr, DecidableEq

/-- One step over the _tooManyRegionsNotified flag. The returned number is
how many warning notifications notificationService.notify receives during
the step (0 or 1): the callback notifies only when the flag is unset and
then sets it; the configuration change resets the flag. -/
def tooManyStep (notified : Bool) : TooManyEvent → Bool × Nat
  | .notifyTooMany _ => if notified then (notified, 0) else (true, 1)
  | .changeMaxRegionsConfig _ => (false, 0)

/-- Total number of warning notifications emitted over a sequence of events
starting from a given flag value. -/
def tooManyCount (notified : Bool) : List TooManyEvent → Nat
  | [] => 0
  | e :: es =>
    let r := tooManyStep notified e
    r.2 + tooManyCount r.1 es

/-- Whether the event is a notify-callback invocation (as opposed to a
configuration change of the maximum). -/
def TooManyEvent.isNotify : TooManyEvent → Bool
  | .notifyTooMany _ => true
  | .changeMaxRegionsConfig _ => false

/-! ### Imports folded by default -/

/-- Events touching _currentModelHasFoldedImports. computationApplied is a
successful provider result passing the guard in triggerFoldingModelChanged
(folding.ts lines 345-351); its argument is the value
foldingRanges.setCollapsedAllOfType(Imports, true) would return, i.e.
whether collapsing the import regions changes anything. modelChanged is
onModelChanged resetting the flag for a newly attached document (line 245);
restoreFoldedImports is restoreViewState overwriting the flag from the
memento (line 208). -/
inductive ImportsEvent where
  | computationApplied (wouldChange : Bool)
  | modelChanged
  | restoreFoldedImports (b : Bool)
deriving Repr, DecidableEq

/-- Per-step record of what the imports block did: attempted is whether
setCollapsedAllOfType was invoked at all, performed whether it was invoked
and actually collapsed regions (hasChanges true, which also captures the
scroll state and sets the flag). -/
structure ImportsAction where
  attempted : Bool
  performed : Bool
deriving Repr, DecidableEq

/-- One step over (foldingImportsByDefault, currentModelHasFoldedImports),
translated from folding.ts lines 345-351, 245 and 208. The configuration
flag is only read here; it changes through its own configuration event that
does not touch the per-document flag. -/
def importsStep (byDefault flag : Bool) :
    ImportsEvent → Bool × ImportsAction
  | .computationApplied wouldChange =>
    if byDefault && !flag then
      (if wouldChange then true else flag, ⟨true, wouldChange⟩)
    else (flag, ⟨false, false⟩)
  | .modelChanged => (false, ⟨false, false⟩)
  | .restoreFoldedImports b => (b, ⟨false, false⟩)

/-- Number of computations over the event list that actually performed
the auto-collapse of imports (setCollapsedAllOfType returned true). -/
def importsPerformedCount (byDefault flag : Bool) : List ImportsEvent → Nat
  | [] => 0
  | e :: es =>
    let r := importsStep byDefault flag e
    (if r.2.performed then 1 else 0) + importsPerformedCount byDefault r.1 es

/-- Whether the event is a successful computation (the only event kind that
can run the imports block). -/
def ImportsEvent.isComputation : ImportsEvent → Bool
  | .computationApplied _ => true
  | _ => false

/-! ### The Restoring flag and hidden-range change events -/

/-- State touched by the restoring-flag protocol: the _restoringViewState
flag and counters of the collaborator calls made by onHiddenRangesChanges
(folding.ts lines 377-387): adjustSelections on the hidden range model,
setSelections and setHiddenAreas on the editor. -/
structure RestoringState where
  restoringViewState : Bool
  adjustSelectionsCalls : Nat
  setSelectionsCalls : Nat
  setHiddenAreasCalls : Nat
deriving Repr, DecidableEq

/-- A hidden-ranges change event as seen by onHiddenRangesChanges: whether the
hidden range model is still present, whether the delivered range list is
non-empty, whether the editor currently has selections, and what
adjustSelections would return on them. -/
structure HiddenChange where
  hasHiddenRangeModel : Bool
  rangesNonEmpty : Bool
  hasSelections : Bool
  adjustReturns : Bool
deriving Repr, DecidableEq

/-- FoldingController.onHiddenRangesChanges (folding.ts lines 377-387):
selection adjustment runs only when the model is present, the range list is
non-empty and the restoring flag is down; setHiddenAreas is always called. -/
def onHiddenRangesChanges (s : RestoringState) (h : HiddenChange) : RestoringState :=
  let s1 :=
    if h.hasHiddenRangeModel && h.rangesNonEmpty && !s.restoringViewState then
      if h.hasSelections then
        let s2 := { s with adjustSelectionsCalls := s.adjustSelectionsCalls + 1 }
        if h.adjustReturns then
          { s2 with setSelectionsCalls := s2.setSelectionsCalls + 1 }
        else s2
      else s
    else s
  { s1 with setHiddenAreasCalls := s1.setHiddenAreasCalls + 1 }

/-- The asynchronous memento application in restoreViewState (folding.ts
lines 222-231): the restoring flag is raised, foldingModel.applyMemento
runs (its collapse mutations deliver hidden-range change events
synchronously, the duringApply list), and the finally clause lowers the
flag whether or not applyMemento threw. The returned boolean is whether the
rejection (a throw out of applyMemento) was reported to onUnexpectedError
by the handler on line 231. -/
def applyMementoWithRestoringFlag (s : RestoringState)
    (duringApply : List HiddenChange) (applyThrows : Bool) :
    RestoringState × Bool :=
  let s1 := { s with restoringViewState := true }
  let s2 := duringApply.foldl onHiddenRangesChanges s1
  ({ s2 with restoringViewState := false }, applyThrows)

/-! ### The fold and unfold editor actions -/

/-- The FoldingArguments interface (folding.ts lines 587-591); every field is
optional. Levels are modelled as integers (the constraint only requires a
number). -/
structure FoldingArguments where
  levels : Option Int := none
  direction : Option String := none
  selectionLines : Option (List Nat) := none
deriving Repr, DecidableEq

/-- The collapse-state operation an action invocation dispatches to, with the
arguments it passes (the folding model itself is implicit). -/
inductive FoldInvocation where
  | setCollapseStateUp (doCollapse : Bool) (lines : List Nat)
  | setCollapseStateLevelsUp (doCollapse : Bool) (levels : Int) (lines : List Nat)
  | setCollapseStateLevelsDown (doCollapse : Bool) (levels : Int) (lines : List Nat)
deriving Repr, DecidableEq

/-- FoldingAction.getLineNumbers (folding.ts lines 576-581): explicit
selectionLines (0-based) are shifted to 1-based, otherwise the selection
start lines are used. -/
def getLineNumbers (args : Option FoldingArguments) (selectedLines : List Nat) :
    List Nat :=
  match args.bind (fun a => a.selectionLines) with
  | some ls => ls.map (fun l => l + 1)
  | none => selectedLines

/-- JavaScript truthiness coercion for the expression levels-or-one used by
both actions: null, undefined and 0 all give 1. -/
def levelsOrOne (levels : Option Int) : Int :=
  match levels with
  | some l => if l = 0 then 1 else l
  | none => 1

/-- UnfoldAction.invoke (folding.ts lines 665-673). -/
def unfoldInvoke (args : Option FoldingArguments) (selectedLines : List Nat) :
    FoldInvocation :=
  let levels := levelsOrOne (args.bind (fun a => a.levels))
  let lineNumbers := getLineNumbers args selectedLines
  if args.bind (fun a => a.direction) = some "up" then
    FoldInvocation.setCollapseStateLevelsUp false levels lineNumbers
  else
    FoldInvocation.setCollapseStateLevelsDown false levels lineNumbers

/-- FoldAction.invoke (folding.ts lines 749-765): with neither a numeric
levels nor a string direction argument, folds the region at the location
(or the first uncollapsed parent when already collapsed) via
setCollapseStateUp; otherwise dispatches on the direction with the
levels-or-one coercion. -/
def foldInvoke (args : Option FoldingArguments) (selectedLines : List Nat) :
    FoldInvocation :=
  let lineNumbers := getLineNumbers args selectedLines
  let levels := args.bind (fun a => a.levels)
  let direction := args.bind (fun a => a.direction)
  if levels = none ∧ direction = none then
    FoldInvocation.setCollapseStateUp true lineNumbers
  else if direction = some "up" then
    FoldInvocation.setCollapseStateLevelsUp true (levelsOrOne levels) lineNumbers
  else
    FoldInvocation.setCollapseStateLevelsDown true (levelsOrOne levels) lineNumbers

end Folding

namespace Folding

/-! ### Theorems -/

/-- C2: a memento whose stored lineCount differs from the current line count
of the document is discarded wholesale: restoreViewState returns without
applying any collapsed region, without storing the memento and without any
error or notification, leaving the collapse state unchanged. -/
theorem restoreViewState_stale_memento_noop
    (ctx : RestoreContext) (hiddenApplyOk : Bool) (s : RestoreEffects)
    (st : FoldingStateMemento) (lc : Nat)
    (hmodel : ctx.modelLineCount = some lc)
    (hmismatch : st.lineCount ≠ some lc) :
    restoreViewState ctx hiddenApplyOk s (some st) = s := by
  simp [restoreViewState, hmodel, hmismatch]

/-- Witness for the stale-memento theorem: the memento of scenario D, saved
at 50 lines, against a document of 51 lines. -/
theorem restoreViewState_stale_memento_noop_witness :
    restoreViewState ⟨some 51, true, false, true, true⟩ true
      ⟨false, none, none, none⟩ (some { lineCount := some 50 }) =
      ⟨false, none, none, none⟩ :=
  restoreViewState_stale_memento_noop _ true _ _ 51 rfl (by decide)

/-- C7: the public entry points are total no-ops when no document is
attached, folding is disabled or the document is too large for
tokenization: saveViewState returns the empty object, restoreViewState
returns without effect, and runEditorCommand returns early when there is no
controller or no folding model promise. -/
theorem entry_points_noop_when_unavailable
    (sctx : SaveContext) (rctx : RestoreContext) (hiddenApplyOk : Bool)
    (s : RestoreEffects) (st : Option FoldingStateMemento)
    (hasController hasPromise : Bool)
    (hsave : sctx.modelLineCount = none ∨ sctx.isEnabled = false ∨
      sctx.tooLargeForTokenization = true)
    (hrestore : rctx.modelLineCount = none ∨ rctx.isEnabled = false ∨
      rctx.tooLargeForTokenization = true)
    (hcmd : hasController = false ∨ hasPromise = false) :
    saveViewState sctx = some emptyMemento ∧
    restoreViewState rctx hiddenApplyOk s st = s ∧
    runEditorCommand hasController hasPromise = CommandOutcome.noop := by
  refine ⟨?_, ?_, ?_⟩
  · rcases hsave with h | h | h
    · simp [saveViewState, h]
    · cases hm : sctx.modelLineCount <;> simp [saveViewState, hm, h]
    · cases hm : sctx.modelLineCount <;> simp [saveViewState, hm, h]
  · rcases hrestore with h | h | h
    · simp [restoreViewState, h]
    · cases hm : rctx.modelLineCount <;> simp [restoreViewState, hm, h]
    · cases hm : rctx.modelLineCount <;> simp [restoreViewState, hm, h]
  · rcases hcmd with h | h <;> simp [runEditorCommand, h]

/-- Witness for the entry-point theorem: folding disabled everywhere and no
controller resolved for the editor. -/
theorem entry_points_noop_when_unavailable_witness :
    saveViewState ⟨some 10, false, false, true, true, none, none, none, false⟩ =
        some emptyMemento ∧
    restoreViewState ⟨some 10, false, false, true, true⟩ true
        ⟨false, none, none, none⟩ (some { lineCount := some 10 }) =
        ⟨false, none, none, none⟩ ∧
    runEditorCommand false true = CommandOutcome.noop :=
  entry_points_noop_when_unavailable _ _ true _ _ false true
    (Or.inr (Or.inl rfl)) (Or.inr (Or.inl rfl)) (Or.inl rfl)

/-- C9: restoreViewState retains the memento for later provider seeding only
when its provider field is the syntax or the initializing provider id; a
memento recorded under any other provider (or none) still has its collapse
state applied, but leaves foldingStateMemento untouched, and with no stored
memento getRangeProvider never selects the initializing provider. -/
theorem memento_retention_requires_matching_provider
    (ctx : RestoreContext) (hiddenApplyOk : Bool) (s : RestoreEffects)
    (st : FoldingStateMemento)
    (hp1 : st.provider ≠ some ID_SYNTAX_PROVIDER)
    (hp2 : st.provider ≠ some ID_INIT_PROVIDER) :
    (restoreViewState ctx hiddenApplyOk s (some st)).foldingStateMemento =
      s.foldingStateMemento ∧
    (∀ lc cr, ctx.modelLineCount = some lc → ctx.isEnabled = true →
       ctx.tooLargeForTokenization = false → ctx.hasHiddenRangeModel = true →
       ctx.hasFoldingModelPromise = true → hiddenApplyOk = true →
       st.lineCount = some lc → st.collapsedRegions = some cr →
       (restoreViewState ctx hiddenApplyOk s (some st)).hiddenApplyCalledWith =
           some cr ∧
       (restoreViewState ctx hiddenApplyOk s (some st)).modelApplyScheduled =
           some cr) ∧
    (∀ (pctx : ProviderContext) (ps : ProviderSelectionState),
       ps.rangeProvider = none → ps.foldingStateMemento = none →
       ((getRangeProvider pctx ps).1).isInitializing = false) := by
  have hprov : ¬ (st.provider = some ID_SYNTAX_PROVIDER ∨
      st.provider = some ID_INIT_PROVIDER) := by
    rintro (h | h)
    · exact hp1 h
    · exact hp2 h
  refine ⟨?_, ?_, ?_⟩
  · simp only [restoreViewState]
    cases hm : ctx.modelLineCount with
    | none => rfl
    | some lc =>
      dsimp only
      by_cases hcond :
          (!ctx.isEnabled || ctx.tooLargeForTokenization || !ctx.hasHiddenRangeModel) = true
      · rw [if_pos hcond]
      · rw [if_neg hcond]
        by_cases hlc : st.lineCount ≠ some lc
        · rw [if_pos hlc]
        · rw [if_neg hlc]
          cases hc : st.collapsedRegions with
          | none => rfl
          | some cr => simp [hprov]
  · intro lc cr hlc hen htl hhm hfm hok hml hcr
    simp [restoreViewState, hlc, hen, htl, hhm, hfm, hok, hml, hcr]
  · intro pctx ps hrp hm
    simp only [getRangeProvider, hrp, hm, mementoCollapsed, Option.bind]
    split
    · cases hop : pctx.orderedProviders <;> simp [ProviderChoice.isInitializing]
    · simp [ProviderChoice.isInitializing]

/-- Witness for the memento-retention theorem: an indentation-provider
memento with matching line count. -/
theorem memento_retention_requires_matching_provider_witness :
    (restoreViewState ⟨some 10, true, false, true, true⟩ true
        ⟨false, none, none, none⟩
        (some { collapsedRegions := some [3], lineCount := some 10,
                provider := some "indent" })).foldingStateMemento = none ∧
    (restoreViewState ⟨some 10, true, false, true, true⟩ true
        ⟨false, none, none, none⟩
        (some { collapsedRegions := some [3], lineCount := some 10,
                provider := some "indent" })).modelApplyScheduled = some [3] ∧
    ((getRangeProvider ⟨true, true, []⟩ ⟨none, none⟩).1).isInitializing = false := by
  have h := memento_retention_requires_matching_provider
    ⟨some 10, true, false, true, true⟩ true ⟨false, none, none, none⟩
    { collapsedRegions := some [3], lineCount := some 10, provider := some "indent" }
    (by decide) (by decide)
  exact ⟨h.1, (h.2.1 10 [3] rfl rfl rfl rfl rfl rfl rfl rfl).2,
    h.2.2 ⟨true, true, []⟩ ⟨none, none⟩ rfl rfl⟩

/-- C5: provider selection. With providers disabled by configuration the
indentation provider is chosen unconditionally; otherwise with no syntax
provider registered and a saved memento with collapsed regions, the
initializing provider seeded with that memento and a 30000 ms timeout is
chosen and the memento kept; otherwise with registered providers the syntax
provider wrapping all of them is chosen; else the indentation fallback.
The timeout callback clears the memento and forces reselection. -/
theorem getRangeProvider_selection
    (ctx : ProviderContext) (s : ProviderSelectionState)
    (hfresh : s.rangeProvider = none) :
    (ctx.useFoldingProviders = false →
       (getRangeProvider ctx s).1 = ProviderChoice.IndentRangeProvider) ∧
    (∀ cr, ctx.useFoldingProviders = true → ctx.hasFoldingModel = true →
       ctx.orderedProviders = [] →
       mementoCollapsed s.foldingStateMemento = some cr →
       getRangeProvider ctx s =
         (ProviderChoice.InitializingRangeProvider cr 30000,
          ⟨some (ProviderChoice.InitializingRangeProvider cr 30000),
           s.foldingStateMemento⟩)) ∧
    (ctx.useFoldingProviders = true → ctx.hasFoldingModel = true →
       ctx.orderedProviders ≠ [] →
       (getRangeProvider ctx s).1 =
         ProviderChoice.SyntaxRangeProvider ctx.orderedProviders) ∧
    (ctx.useFoldingProviders = true → ctx.hasFoldingModel = true →
       ctx.orderedProviders = [] →
       mementoCollapsed s.foldingStateMemento = none →
       (getRangeProvider ctx s).1 = ProviderChoice.IndentRangeProvider) ∧
    (∀ s2 : ProviderSelectionState,
       initializingTimeoutCallback s2 = (⟨none, none⟩, true)) := by
  refine ⟨?_, ?_, ?_, ?_, ?_⟩
  · intro hu
    simp [getRangeProvider, hfresh, hu]
  · intro cr hu hm hops hmem
    simp [getRangeProvider, hfresh, hu, hm, hops, hmem]
  · intro hu hm hops
    cases hop : ctx.orderedProviders with
    | nil => exact absurd hop hops
    | cons p ps => simp [getRangeProvider, hfresh, hu, hm, hop]
  · intro hu hm hops hmem
    simp [getRangeProvider, hfresh, hu, hm, hops, hmem]
  · intro s2
    simp [initializingTimeoutCallback, onFoldingStrategyChangedSel]

/-- Witness for the provider-selection theorem: with one registered provider
the syntax provider wrapping it is selected, and with none plus a saved
memento the initializing provider is selected. -/
theorem getRangeProvider_selection_witness :
    (getRangeProvider ⟨true, true, [7]⟩ ⟨none, none⟩).1 =
        ProviderChoice.SyntaxRangeProvider [7] ∧
    getRangeProvider ⟨true, true, []⟩
        ⟨none, some { collapsedRegions := some [2] }⟩ =
      (ProviderChoice.InitializingRangeProvider [2] 30000,
       ⟨some (ProviderChoice.InitializingRangeProvider [2] 30000),
        some { collapsedRegions := some [2] }⟩) :=
  ⟨(getRangeProvider_selection ⟨true, true, [7]⟩ ⟨none, none⟩ rfl).2.2.1
      rfl rfl (by decide),
   (getRangeProvider_selection ⟨true, true, []⟩
        ⟨none, some { collapsedRegions := some [2] }⟩ rfl).2.1
      [2] rfl rfl rfl rfl⟩

/-- C10: for both the unfold and the fold command a levels argument of 0 is
coerced to 1 before reaching the collapse-state operation (and for unfold
an absent levels argument likewise); for fold with a direction supplied an
absent levels argument is also coerced to 1; and the fold-at-cursor policy
(setCollapseStateUp) is dispatched exactly when neither a numeric levels
nor a string direction argument is supplied. -/
theorem fold_unfold_levels_coercion
    (a : FoldingArguments) (sel : List Nat) :
    (unfoldInvoke (some { a with levels := some 0 }) sel =
       unfoldInvoke (some { a with levels := some 1 }) sel) ∧
    (unfoldInvoke (some { a with levels := none }) sel =
       unfoldInvoke (some { a with levels := some 1 }) sel) ∧
    (foldInvoke (some { a with levels := some 0 }) sel =
       foldInvoke (some { a with levels := some 1 }) sel) ∧
    (∀ d, a.direction = some d →
       foldInvoke (some { a with levels := none }) sel =
       foldInvoke (some { a with levels := some 1 }) sel) ∧
    ((foldInvoke (some a) sel matches
        FoldInvocation.setCollapseStateUp _ _) = true ↔
      a.levels = none ∧ a.direction = none) := by
  refine ⟨?_, ?_, ?_, ?_, ?_⟩
  · simp [unfoldInvoke, levelsOrOne, getLineNumbers]
  · simp [unfoldInvoke, levelsOrOne, getLineNumbers]
  · simp only [foldInvoke, levelsOrOne, getLineNumbers, Option.bind]
    split <;> simp_all
  · intro d hd
    simp only [foldInvoke, levelsOrOne, getLineNumbers, Option.bind, hd]
    simp
  · constructor
    · intro h
      by_cases hl : a.levels = none
      · by_cases hdir : a.direction = none
        · exact ⟨hl, hdir⟩
        · exfalso
          by_cases hup : a.direction = some "up" <;>
            simp [foldInvoke, hl, hdir, hup] at h
      · exfalso
        by_cases hup : a.direction = some "up" <;>
          simp [foldInvoke, hl, hup] at h
    · rintro ⟨hl, hdir⟩
      simp [foldInvoke, hl, hdir]

/-- Witness for the levels-coercion theorem: levels 0 with direction up and
explicit selection lines. -/
theorem fold_unfold_levels_coercion_witness :
    (unfoldInvoke (some ⟨some 0, some "up", some [4]⟩) [9] =
       unfoldInvoke (some ⟨some 1, some "up", some [4]⟩) [9]) ∧
    (foldInvoke (some ⟨some 0, some "up", some [4]⟩) [9] =
       foldInvoke (some ⟨some 1, some "up", some [4]⟩) [9]) ∧
    ((foldInvoke (some ⟨none, none, some [4]⟩) [9] matches
        FoldInvocation.setCollapseStateUp _ _) = true) := by
  have h0 := fold_unfold_levels_coercion ⟨some 0, some "up", some [4]⟩ [9]
  have h1 := fold_unfold_levels_coercion ⟨none, none, some [4]⟩ [9]
  exact ⟨h0.1, h0.2.2.1, h1.2.2.2.2.mpr ⟨rfl, rfl⟩⟩

/-- Once the notified flag is up, a run of pure notify-callback invocations
emits no further notification. -/
theorem tooManyCount_of_notified (evs : List TooManyEvent)
    (hall : ∀ e ∈ evs, e.isNotify = true) :
    tooManyCount true evs = 0 := by
  induction evs with
  | nil => rfl
  | cons e es ih =>
    cases e with
    | notifyTooMany m =>
      simpa [tooManyCount, tooManyStep] using
        ih (fun x hx => hall x (List.mem_cons_of_mem _ hx))
    | changeMaxRegionsConfig m =>
      exact absurd (hall _ (List.mem_cons_self _ _)) (by simp [TooManyEvent.isNotify])

/-- C3: across any number of computations invoking the notify callback the
too-many-regions warning is raised at most once, a change of the
foldingMaximumRegions configuration resets the once-flag, and from the
reset flag a non-empty run of callback invocations raises the warning
exactly once again. -/
theorem tooManyRegions_notified_once_per_session
    (notified : Bool) (evs : List TooManyEvent)
    (hall : ∀ e ∈ evs, e.isNotify = true) :
    tooManyCount notified evs ≤ 1 ∧
    (notified = false → evs ≠ [] → tooManyCount notified evs = 1) ∧
    (∀ m, (tooManyStep notified (TooManyEvent.changeMaxRegionsConfig m)).1 = false) := by
  refine ⟨?_, ?_, fun m => rfl⟩
  · cases notified with
    | true => simp [tooManyCount_of_notified evs hall]
    | false =>
      cases evs with
      | nil => simp [tooManyCount]
      | cons e es =>
        cases e with
        | notifyTooMany m =>
          have : tooManyCount true es = 0 :=
            tooManyCount_of_notified es (fun x hx => hall x (List.mem_cons_of_mem _ hx))
          simp [tooManyCount, tooManyStep, this]
        | changeMaxRegionsConfig m =>
          exact absurd (hall _ (List.mem_cons_self _ _)) (by simp [TooManyEvent.isNotify])
  · intro hn hne
    subst hn
    cases evs with
    | nil => exact absurd rfl hne
    | cons e es =>
      cases e with
      | notifyTooMany m =>
        have : tooManyCount true es = 0 :=
          tooManyCount_of_notified es (fun x hx => hall x (List.mem_cons_of_mem _ hx))
        simp [tooManyCount, tooManyStep, this]
      | changeMaxRegionsConfig m =>
        exact absurd (hall _ (List.mem_cons_self _ _)) (by simp [TooManyEvent.isNotify])

/-- Witness for the once-per-session theorem: three computations hitting the
limit of 100 produce exactly one notification, scenario E. -/
theorem tooManyRegions_notified_once_per_session_witness :
    tooManyCount false
        [TooManyEvent.notifyTooMany 100, TooManyEvent.notifyTooMany 100,
         TooManyEvent.notifyTooMany 100] ≤ 1 ∧
    tooManyCount false
        [TooManyEvent.notifyTooMany 100, TooManyEvent.notifyTooMany 100,
         TooManyEvent.notifyTooMany 100] = 1 := by
  have h := tooManyRegions_notified_once_per_session false
    [TooManyEvent.notifyTooMany 100, TooManyEvent.notifyTooMany 100,
     TooManyEvent.notifyTooMany 100] (by decide)
  exact ⟨h.1, h.2.1 rfl (by decide)⟩

/-- Once the per-document folded-imports flag is up it stays up across pure
computation events, none of which performs the import auto-collapse. -/
theorem importsPerformedCount_of_flag (byDefault : Bool) (evs : List ImportsEvent)
    (hall : ∀ e ∈ evs, e.isComputation = true) :
    importsPerformedCount byDefault true evs = 0 := by
  induction evs with
  | nil => rfl
  | cons e es ih =>
    cases e with
    | computationApplied wc =>
      have := ih (fun x hx => hall x (List.mem_cons_of_mem _ hx))
      cases byDefault <;>
        simp [importsPerformedCount, importsStep, this]
    | modelChanged =>
      exact absurd (hall _ (List.mem_cons_self _ _)) (by simp [ImportsEvent.isComputation])
    | restoreFoldedImports b =>
      exact absurd (hall _ (List.mem_cons_self _ _)) (by simp [ImportsEvent.isComputation])

/-- C4: over any run of provider computations for one document the import
auto-collapse is performed at most once; once the per-document flag is up a
computation no longer performs it; with the option configured and the flag
down a computation always attempts it (so the first successful computation
after attach auto-collapses the import regions); onModelChanged resets the
flag for a new document and restoreViewState restores it from the memento
foldedImports field. -/
theorem imports_auto_collapse_once
    (byDefault flag : Bool) (evs : List ImportsEvent)
    (hall : ∀ e ∈ evs, e.isComputation = true) :
    importsPerformedCount byDefault flag evs ≤ 1 ∧
    (∀ wc, flag = true →
       (importsStep byDefault flag (ImportsEvent.computationApplied wc)).2.performed =
         false) ∧
    (∀ wc, byDefault = true → flag = false →
       (importsStep byDefault flag (ImportsEvent.computationApplied wc)).2.attempted =
         true) ∧
    ((importsStep byDefault flag ImportsEvent.modelChanged).1 = false) ∧
    (∀ b, (importsStep byDefault flag (ImportsEvent.restoreFoldedImports b)).1 = b) := by
  refine ⟨?_, ?_, ?_, rfl, fun b => rfl⟩
  · induction evs generalizing flag with
    | nil => simp [importsPerformedCount]
    | cons e es ih =>
      have hall2 : ∀ e ∈ es, e.isComputation = true :=
        fun x hx => hall x (List.mem_cons_of_mem _ hx)
      cases e with
      | computationApplied wc =>
        cases hbd : byDefault with
        | false =>
          simpa [importsPerformedCount, importsStep, hbd] using ih flag hall2
        | true =>
          cases flag with
          | true =>
            have h0 := importsPerformedCount_of_flag true es hall2
            simp [importsPerformedCount, importsStep, hbd, h0]
          | false =>
            cases wc with
            | true =>
              have h0 := importsPerformedCount_of_flag true es hall2
              simp [importsPerformedCount, importsStep, hbd, h0]
            | false =>
              simpa [importsPerformedCount, importsStep, hbd] using ih false hall2
      | modelChanged =>
        exact absurd (hall _ (List.mem_cons_self _ _)) (by simp [ImportsEvent.isComputation])
      | restoreFoldedImports b =>
        exact absurd (hall _ (List.mem_cons_self _ _)) (by simp [ImportsEvent.isComputation])
  · intro wc hf
    subst hf
    cases byDefault <;> rfl
  · intro wc hbd hf
    subst hbd; subst hf
    rfl

/-- Witness for the imports theorem: with foldingImportsByDefault configured,
a first computation that collapses import regions followed by two further
computations performs the collapse exactly once, and the flag falls back to
false on a model change. -/
theorem imports_auto_collapse_once_witness :
    importsPerformedCount true false
        [ImportsEvent.computationApplied true, ImportsEvent.computationApplied true,
         ImportsEvent.computationApplied true] ≤ 1 ∧
    (importsStep true false ImportsEvent.modelChanged).1 = false := by
  have h := imports_auto_collapse_once true false
    [ImportsEvent.computationApplied true, ImportsEvent.computationApplied true,
     ImportsEvent.computationApplied true] (by decide)
  exact ⟨h.1, h.2.2.2.1⟩

/-- While the restoring flag is up, any run of hidden-range change events
leaves the flag up and makes no selection call. -/
theorem onHiddenRangesChanges_restoring_invariant (l : List HiddenChange) :
    ∀ s : RestoringState, s.restoringViewState = true →
      (l.foldl onHiddenRangesChanges s).restoringViewState = true ∧
      (l.foldl onHiddenRangesChanges s).adjustSelectionsCalls =
        s.adjustSelectionsCalls ∧
      (l.foldl onHiddenRangesChanges s).setSelectionsCalls = s.setSelectionsCalls := by
  induction l with
  | nil => exact fun s hs => ⟨hs, rfl, rfl⟩
  | cons h t ih =>
    intro s hs
    have hstep : onHiddenRangesChanges s h =
        { s with setHiddenAreasCalls := s.setHiddenAreasCalls + 1 } := by
      simp [onHiddenRangesChanges, hs]
    have := ih (onHiddenRangesChanges s h) (by rw [hstep]; exact hs)
    simpa [List.foldl, hstep] using this

/-- C8: a hidden-ranges change event delivered while the restoring flag is up
never calls adjustSelections nor setSelections, and the memento apply of
restoreViewState lowers the flag when it finishes — also when applyMemento
throws, in which case the error is reported — with all selection counters
untouched by the change events delivered during the apply. -/
theorem restoring_flag_suppresses_selection_adjustment
    (s : RestoringState) (h : HiddenChange)
    (hs : s.restoringViewState = true) :
    (onHiddenRangesChanges s h).adjustSelectionsCalls = s.adjustSelectionsCalls ∧
    (onHiddenRangesChanges s h).setSelectionsCalls = s.setSelectionsCalls ∧
    ∀ (s0 : RestoringState) (duringApply : List HiddenChange) (applyThrows : Bool),
      (applyMementoWithRestoringFlag s0 duringApply applyThrows).1.restoringViewState =
          false ∧
      (applyMementoWithRestoringFlag s0 duringApply applyThrows).1.adjustSelectionsCalls =
          s0.adjustSelectionsCalls ∧
      (applyMementoWithRestoringFlag s0 duringApply applyThrows).1.setSelectionsCalls =
          s0.setSelectionsCalls ∧
      (applyMementoWithRestoringFlag s0 duringApply applyThrows).2 = applyThrows := by
  refine ⟨?_, ?_, ?_⟩
  · simp [onHiddenRangesChanges, hs]
  · simp [onHiddenRangesChanges, hs]
  · intro s0 duringApply applyThrows
    have hinv := onHiddenRangesChanges_restoring_invariant duringApply
      { s0 with restoringViewState := true } rfl
    refine ⟨?_, ?_, ?_, rfl⟩ <;>
      simp [applyMementoWithRestoringFlag, hinv.2.1, hinv.2.2]

/-- Witness for the restoring-flag theorem: one change event under the flag,
and an apply during which two change events arrive and applyMemento throws. -/
theorem restoring_flag_suppresses_selection_adjustment_witness :
    (onHiddenRangesChanges ⟨true, 0, 0, 0⟩ ⟨true, true, true, true⟩).adjustSelectionsCalls =
        0 ∧
    (applyMementoWithRestoringFlag ⟨false, 0, 0, 0⟩
        [⟨true, true, true, true⟩, ⟨true, true, true, true⟩] true).1.restoringViewState =
        false ∧
    (applyMementoWithRestoringFlag ⟨false, 0, 0, 0⟩
        [⟨true, true, true, true⟩, ⟨true, true, true, true⟩] true).1.setSelectionsCalls =
        0 := by
  have h := restoring_flag_suppresses_selection_adjustment
    ⟨true, 0, 0, 0⟩ ⟨true, true, true, true⟩ rfl
  have h2 := h.2.2 ⟨false, 0, 0, 0⟩
    [⟨true, true, true, true⟩, ⟨true, true, true, true⟩] true
  exact ⟨h.1, h2.1, h2.2.2.1⟩

/-- C6: a rejected provider promise is reported to the unexpected-error sink
and treated as no update (the prior FoldingRegions are retained), and a
null result — the cancellation signal — never mutates the model either,
while an empty-but-valid region set resolved on the current promise does
update the model, so cancellation stays distinguishable from a genuine
empty result. -/
theorem rejection_and_null_result_no_update
    (s : CompState) (g : Nat) (regions : List Nat) :
    ((compStep s (CompEvent.reject g)).modelRegions = s.modelRegions ∧
     (compStep s (CompEvent.reject g)).updates = s.updates ∧
     (compStep s (CompEvent.reject g)).errorsReported = s.errorsReported + 1) ∧
    ((compStep s (CompEvent.resolve g none)).modelRegions = s.modelRegions ∧
     (compStep s (CompEvent.resolve g none)).updates = s.updates) ∧
    (s.current = some g →
       (compStep s (CompEvent.resolve g (some regions))).modelRegions =
         some regions) := by
  refine ⟨⟨rfl, rfl, rfl⟩, ⟨rfl, rfl⟩, ?_⟩
  intro hc
  simp [compStep, hc]

/-- Witness for the rejection theorem: a reject and a null resolve on the
state after one started computation, plus an empty-but-valid resolve. -/
theorem rejection_and_null_result_no_update_witness :
    ((compStep (compStep (compStep compInit CompEvent.trigger) CompEvent.delayerFire)
        (CompEvent.reject 0)).modelRegions = none) ∧
    ((compStep (compStep (compStep compInit CompEvent.trigger) CompEvent.delayerFire)
        (CompEvent.resolve 0 none)).modelRegions = none) ∧
    ((compStep (compStep (compStep compInit CompEvent.trigger) CompEvent.delayerFire)
        (CompEvent.resolve 0 (some []))).modelRegions = some []) := by
  have h := rejection_and_null_result_no_update
    (compStep (compStep compInit CompEvent.trigger) CompEvent.delayerFire) 0 []
  exact ⟨h.1.1, h.2.1.1, h.2.2 (by decide)⟩

/-- Invariant of the computation pipeline: the current promise and every
cancelled promise carry generation ids below the fresh counter, a cancelled
promise is never the current one again, a pending debounce trigger implies
nothing is in flight, and at most the current promise is in flight. -/
def CompInv (s : CompState) : Prop :=
  (∀ c, s.current = some c → c < s.nextGen) ∧
  (∀ g ∈ s.cancelled, g < s.nextGen) ∧
  (∀ g ∈ s.cancelled, s.current ≠ some g) ∧
  (s.pendingTrigger = true → s.inFlight = []) ∧
  (s.inFlight = [] ∨ ∃ c, s.inFlight = [c] ∧ s.current = some c)

/-- Erasing an element keeps the in-flight list in invariant shape. -/
theorem inFlight_shape_erase {l : List Nat} {cur : Option Nat} (g : Nat)
    (h : l = [] ∨ ∃ c, l = [c] ∧ cur = some c) :
    l.erase g = [] ∨ ∃ c, l.erase g = [c] ∧ cur = some c := by
  rcases h with h | ⟨c, hl, hc⟩
  · subst h; left; rfl
  · subst hl
    by_cases hg : c = g
    · subst hg; left; simp
    · right; exact ⟨c, by simp [List.erase_cons, hg], hc⟩

/-- The freshly attached controller satisfies the pipeline invariant. -/
theorem compInv_init : CompInv compInit := by
  refine ⟨?_, ?_, ?_, ?_, ?_⟩ <;> simp [compInit]

/-- Cancelling the current promise empties the in-flight list whenever the
invariant shape holds. -/
theorem trigger_inFlight_empty {s : CompState}
    (h5 : s.inFlight = [] ∨ ∃ c, s.inFlight = [c] ∧ s.current = some c) :
    (match s.current with
     | some g => s.inFlight.erase g
     | none => s.inFlight) = [] := by
  cases hcur : s.current with
  | none =>
    rcases h5 with h5 | ⟨c, hl, hc⟩
    · simpa using h5
    · rw [hcur] at hc; exact absurd hc (by simp)
  | some c =>
    rcases h5 with h5 | ⟨c2, hl, hc⟩
    · simp [h5]
    · rw [hcur] at hc
      injection hc with hcc
      subst hcc
      simp [hl]

/-- Every pipeline event preserves the invariant. -/
theorem compInv_step {s : CompState} (e : CompEvent) (h : CompInv s) :
    CompInv (compStep s e) := by
  obtain ⟨h1, h2, h3, h4, h5⟩ := h
  cases e with
  | trigger =>
    by_cases ha : s.schedulerActive = true
    · simp only [compStep, if_pos ha]
      refine ⟨by simp, ?_, by simp, ?_, ?_⟩
      · intro g hg
        cases hcur : s.current with
        | none => rw [hcur] at hg; exact h2 g hg
        | some c =>
          rw [hcur] at hg
          rcases List.mem_append.mp hg with hg | hg
          · exact h2 g hg
          · have : g = c := by simpa using hg
            subst this
            exact h1 g hcur
      · intro _
        exact trigger_inFlight_empty h5
      · left
        exact trigger_inFlight_empty h5
    · simpa [compStep, ha] using ⟨h1, h2, h3, h4, h5⟩
  | delayerFire =>
    by_cases ha : (s.schedulerActive && s.pendingTrigger) = true
    · have hpend : s.pendingTrigger = true := (Bool.and_eq_true _ _ |>.mp ha).2
      have hfl : s.inFlight = [] := h4 hpend
      simp only [compStep, if_pos ha]
      refine ⟨?_, ?_, ?_, by simp, ?_⟩
      · intro c hc
        dsimp only at hc ⊢
        have : s.nextGen = c := by simpa using hc
        omega
      · intro g hg
        dsimp only at hg ⊢
        have := h2 g hg
        omega
      · intro g hg hcur
        dsimp only at hg hcur
        have hlt := h2 g hg
        have : s.nextGen = g := by simpa using hcur
        omega
      · right
        exact ⟨s.nextGen, by simp [hfl], rfl⟩
    · simpa [compStep, ha] using ⟨h1, h2, h3, h4, h5⟩
  | resolve g r =>
    have hbase : CompInv { s with inFlight := s.inFlight.erase g } := by
      refine ⟨h1, h2, h3, ?_, ?_⟩
      · intro hp
        simp [h4 hp]
      · exact inFlight_shape_erase g h5
    cases r with
    | none => simpa [compStep] using hbase
    | some regions =>
      by_cases hc : s.current = some g
      · simp only [compStep, if_pos hc]
        exact hbase
      · simp only [compStep, if_neg hc]
        exact hbase
  | reject g =>
    refine ⟨h1, h2, h3, ?_, ?_⟩
    · intro hp
      simp [compStep, h4 hp]
    · simpa [compStep] using inFlight_shape_erase g h5

/-- Every reachable pipeline state satisfies the invariant. -/
theorem compReachable_inv {s : CompState} (h : CompReachable s) : CompInv s := by
  induction h with
  | init => exact compInv_init
  | step e _ ih => exact compInv_step e ih

/-- C1: in every reachable controller state at most one computation is in
flight; the model is mutated only by a step resolving the currently held
promise with a non-null result; a resolution of a cancelled (superseded)
computation never updates the model; and a new trigger cancels the
in-flight computation — clearing the current promise and the in-flight set
— before the new computation is scheduled. -/
theorem stale_resolution_never_updates_model
    (s : CompState) (hreach : CompReachable s) :
    s.inFlight.length ≤ 1 ∧
    (∀ e : CompEvent, s.updates < (compStep s e).updates →
       ∃ g regions, e = CompEvent.resolve g (some regions) ∧ s.current = some g) ∧
    (∀ g ∈ s.cancelled, ∀ r,
       (compStep s (CompEvent.resolve g r)).modelRegions = s.modelRegions ∧
       (compStep s (CompEvent.resolve g r)).updates = s.updates) ∧
    (s.schedulerActive = true →
       (compStep s CompEvent.trigger).current = none ∧
       (compStep s CompEvent.trigger).inFlight = [] ∧
       (compStep s CompEvent.trigger).pendingTrigger = true) := by
  obtain ⟨h1, h2, h3, h4, h5⟩ := compReachable_inv hreach
  refine ⟨?_, ?_, ?_, ?_⟩
  · rcases h5 with h5 | ⟨c, hl, _⟩
    · simp [h5]
    · simp [hl]
  · intro e hup
    cases e with
    | trigger =>
      by_cases ha : s.schedulerActive = true <;>
        simp [compStep, ha] at hup
    | delayerFire =>
      by_cases ha : (s.schedulerActive && s.pendingTrigger) = true <;>
        simp [compStep, ha] at hup
    | resolve g r =>
      cases r with
      | none => simp [compStep] at hup
      | some regions =>
        by_cases hc : s.current = some g
        · exact ⟨g, regions, rfl, hc⟩
        · simp [compStep, hc] at hup
    | reject g => simp [compStep] at hup
  · intro g hg r
    have hc : s.current ≠ some g := h3 g hg
    cases r with
    | none => exact ⟨rfl, rfl⟩
    | some regions => simp [compStep, hc]
  · intro ha
    have hfl : (compStep s CompEvent.trigger).inFlight = [] := by
      simp only [compStep, if_pos ha]
      exact trigger_inFlight_empty h5
    exact ⟨by simp [compStep, ha], hfl, by simp [compStep, ha]⟩

/-- Witness for the stale-resolution theorem, at the reachable state in which
a first computation was started, superseded by a trigger (cancelling
generation 0) and replaced by a second computation (generation 1): the
stale resolution of generation 0, even racing in with a non-null result,
leaves the model untouched. -/
theorem stale_resolution_never_updates_model_witness :
    ((compStep (compStep (compStep (compStep compInit CompEvent.trigger)
        CompEvent.delayerFire) CompEvent.trigger) CompEvent.delayerFire).inFlight.length ≤ 1) ∧
    ((compStep (compStep (compStep (compStep (compStep compInit CompEvent.trigger)
        CompEvent.delayerFire) CompEvent.trigger) CompEvent.delayerFire)
        (CompEvent.resolve 0 (some [5]))).modelRegions =
      (compStep (compStep (compStep (compStep compInit CompEvent.trigger)
        CompEvent.delayerFire) CompEvent.trigger) CompEvent.delayerFire).modelRegions) := by
  have h := stale_resolution_never_updates_model
    (compStep (compStep (compStep (compStep compInit CompEvent.trigger)
      CompEvent.delayerFire) CompEvent.trigger) CompEvent.delayerFire)
    (CompReachable.step _ (CompReachable.step _ (CompReachable.step _
      (CompReachable.step _ CompReachable.init))))
  exact ⟨h.1, (h.2.2.1 0 (by decide) (some [5])).1⟩

end Folding
